import Mathlib

/-!
TelnetChat: the room registry of `server.go`

A shallow embedding of the three command handlers of `TelnetChatServer`
(`JoinHandlerFunc`, `LeaveHandlerFunc`, `SendHandlerFunc`) together with the
constructor `NewChatServer`.

* A session (`io.WriteCloser`, compared by `==`, i.e. by identity) is a natural
  number.
* The Go map `rooms : map[string][]io.WriteCloser` is a partial function from room
  names to member lists; `userRooms : map[io.WriteCloser]string` is a partial
  function from sessions to room names.  `none` means that the key has no entry.
  The handlers only look keys up and assign to keys, never iterate over a map.
* Every handler reads and updates the two maps only while holding `roomsLock` (the
  usage branch of `JoinHandlerFunc` returns before locking and touches neither map),
  so the map accesses of different calls do not interleave and a run of the server is
  a sequence of handler calls.
* Every `Write` on a session is recorded, in order, as a pair of the receiving
  session and the bytes written.  No handler inspects the value returned by `Write`.
-/

namespace TelnetChat

/-! ## Data model -/

/-- A connected client: the `stdout` handle of the shell, compared by identity. -/
abbrev Session := Nat

/-- The two maps of `TelnetChatServer` (the shell handler and the locks carry no data). -/
structure TelnetChatServer where
  rooms : String → Option (List Session)
  userRooms : Session → Option String

/-- What a handler call leaves behind: the maps, the writes it performed in order, and
the returned `error` (`none` is Go's `nil`). -/
structure Outcome where
  cs : TelnetChatServer
  writes : List (Session × String)
  err : Option String

/-- The maps built by `NewChatServer`: both empty. -/
def NewChatServer : TelnetChatServer :=
  { rooms := fun _ => none, userRooms := fun _ => none }

/-- Go's `cs.rooms[room]` used as a value: the stored slice, or the nil (empty) slice
when the key is absent. -/
def members (cs : TelnetChatServer) (room : String) : List Session :=
  (cs.rooms room).getD []

/-- Go's `cs.userRooms[stdout]` used as a value: the stored name, or the empty string
when the key is absent. -/
def roomOf (cs : TelnetChatServer) (stdout : Session) : String :=
  (cs.userRooms stdout).getD ""

/-- Map assignment `m[k] = v`. -/
def assign {κ ν : Type} [DecidableEq κ] (m : κ → Option ν) (k : κ) (v : ν) : κ → Option ν :=
  fun k' => if k' = k then some v else m k'

/-! ## Handlers -/

/-- `JoinHandlerFunc` (server.go 24-48). -/
def JoinHandlerFunc (cs : TelnetChatServer) (stdout : Session) (args : List String) : Outcome :=
  match args with
  | [] => { cs := cs, writes := [(stdout, "Usage: join <room number>\r\n")], err := none }
  | room :: _ =>
    match cs.rooms room with
    | some arr =>
      { cs := { rooms := assign cs.rooms room (arr ++ [stdout]),
                userRooms := assign cs.userRooms stdout room },
        writes := [],
        err := none }
    | none =>
      { cs := { rooms := assign cs.rooms room [stdout],
                userRooms := assign cs.userRooms stdout room },
        writes := [(stdout, "Joined room " ++ room ++ "\r\n")],
        err := none }

/-- The scan `for i := 0; i < len(arr); i++ { if arr[i] == stdout { ... break } }` of
`LeaveHandlerFunc`: the first index holding `stdout`, if any. -/
def leaveScan (stdout : Session) : List Session → Option Nat
  | [] => none
  | w :: ws => if w = stdout then some 0 else (leaveScan stdout ws).map (· + 1)

/-- `LeaveHandlerFunc` (server.go 54-77).  The arguments are ignored. -/
def LeaveHandlerFunc (cs : TelnetChatServer) (stdout : Session) (_args : List String) : Outcome :=
  let called : Session × String := (stdout, "Leave Handler Called for room ")
  match cs.userRooms stdout with
  | none => { cs := cs, writes := [called], err := none }
  | some room =>
    match leaveScan stdout (members cs room) with
    | none => { cs := cs, writes := [called], err := none }
    | some i =>
      { cs := { rooms := assign cs.rooms room
                  ((members cs room).take i ++ (members cs room).drop (i + 1)),
                userRooms := cs.userRooms },
        writes := [called, (stdout, "Left room " ++ room)],
        err := none }

/-- The loop `for _, writer := range arr { if writer != stdout { writer.Write(payload) } }`
of `SendHandlerFunc`. -/
def sendLoop (stdout : Session) (payload : String) : List Session → List (Session × String)
  | [] => []
  | writer :: rest =>
    if writer ≠ stdout then (writer, payload) :: sendLoop stdout payload rest
    else sendLoop stdout payload rest

/-- `SendHandlerFunc` (server.go 83-98); `strings.Join(args, "")` is `String.join`. -/
def SendHandlerFunc (cs : TelnetChatServer) (stdout : Session) (args : List String) : Outcome :=
  { cs := cs,
    writes := sendLoop stdout (String.join args) (members cs (roomOf cs stdout)),
    err := none }

/-! ## Send with the results of the writes

`Write` returns `(n int, err error)`.  `SendHandlerFunc` calls `writer.Write(...)` as a
statement, so the returned error is dropped.  The definitions below repeat the loop with
the result of every `Write` supplied from outside, to state what the handler does when
writes fail. -/

/-- One call `writer.Write(bytes)` together with the error it returned (`none` is `nil`). -/
structure WriteCall where
  writer : Session
  bytes : String
  result : Option String

/-- The loop of `SendHandlerFunc`, where `write w p` is the error returned by
`w.Write(p)`.  The loop body does not look at it. -/
def sendLoopUnder (write : Session → String → Option String) (stdout : Session)
    (payload : String) : List Session → List WriteCall
  | [] => []
  | writer :: rest =>
    if writer ≠ stdout then
      { writer := writer, bytes := payload, result := write writer payload }
        :: sendLoopUnder write stdout payload rest
    else sendLoopUnder write stdout payload rest

/-- `SendHandlerFunc` (server.go 83-98) with the result of every `Write` given by
`write`: the calls made, in order, and the error the handler returns. -/
def SendHandlerFuncUnder (write : Session → String → Option String) (cs : TelnetChatServer)
    (stdout : Session) (args : List String) : List WriteCall × Option String :=
  (sendLoopUnder write stdout (String.join args) (members cs (roomOf cs stdout)), none)

/-! ## Runs of the server -/

/-- One command reaching the registry from the shell: the verb, the issuing session and
the argument list. -/
inductive Cmd where
  | join (stdout : Session) (args : List String)
  | leave (stdout : Session) (args : List String)
  | send (stdout : Session) (args : List String)

/-- Dispatch of one command to its handler. -/
def step (cs : TelnetChatServer) : Cmd → Outcome
  | .join stdout args => JoinHandlerFunc cs stdout args
  | .leave stdout args => LeaveHandlerFunc cs stdout args
  | .send stdout args => SendHandlerFunc cs stdout args

/-- The registry after a sequence of handler calls. -/
def run (cs : TelnetChatServer) : List Cmd → TelnetChatServer
  | [] => cs
  | c :: rest => run (step cs c).cs rest

/-- A registry state reachable from the empty registry by Join, Leave and Send calls. -/
def Reachable (cs : TelnetChatServer) : Prop :=
  ∃ cmds : List Cmd, run NewChatServer cmds = cs

/-! ## Properties named by the specification -/

/-- Invariant I1 at one state: a session is in a room's member collection exactly when
the tracker maps it to that room. -/
def MembersIffTracked (cs : TelnetChatServer) : Prop :=
  ∀ (r : String) (s : Session), s ∈ members cs r ↔ cs.userRooms s = some r

/-- Half of I1: whoever is in a room's member collection is tracked to that room. -/
def MembersTracked (cs : TelnetChatServer) : Prop :=
  ∀ (r : String) (s : Session), s ∈ members cs r → cs.userRooms s = some r

/-- The other half of I1: whoever is tracked to a room is in its member collection. -/
def TrackedMembers (cs : TelnetChatServer) : Prop :=
  ∀ (r : String) (s : Session), cs.userRooms s = some r → s ∈ members cs r

/-- Invariant I2 at one state: no session is in the member collections of two rooms. -/
def AtMostOneRoom (cs : TelnetChatServer) : Prop :=
  ∀ (s : Session) (r₁ r₂ : String), s ∈ members cs r₁ → s ∈ members cs r₂ → r₁ = r₂

/-- Invariant I3 at one state: no member collection lists a session twice. -/
def NoDuplicates (cs : TelnetChatServer) : Prop :=
  ∀ r : String, (members cs r).Nodup

/-- Isolation across rooms at one state: a Send by a session tracked to room `A` writes
to no session tracked to a different room `B`. -/
def Isolated (cs : TelnetChatServer) : Prop :=
  ∀ (S : Session) (A : String) (args : List String), cs.userRooms S = some A →
    ∀ w ∈ (SendHandlerFunc cs S args).writes, ∀ B : String, B ≠ A → cs.userRooms w.1 ≠ some B

/-- The calling discipline of the per-session state machine (a session exits its room
before it joins again): along the sequence, every Join that carries a room name is
issued by a session that at that moment occurs in no room's member collection. -/
def JoinsFromOutside : TelnetChatServer → List Cmd → Prop
  | _, [] => True
  | cs, c :: rest =>
    (match c with
      | .join stdout (_ :: _) => ∀ room : String, stdout ∉ members cs room
      | _ => True) ∧ JoinsFromOutside (step cs c).cs rest

/-- Whether a command is a Leave. -/
def Cmd.isLeave : Cmd → Bool
  | .leave _ _ => true
  | _ => false

/-- A command sequence without any Leave call. -/
def NoLeave (cmds : List Cmd) : Prop :=
  ∀ c ∈ cmds, c.isLeave = false

/-- Every session listed in some room's member collection has a tracker entry. -/
def MembersHaveEntry (cs : TelnetChatServer) : Prop :=
  ∀ (r : String) (s : Session), s ∈ members cs r → (cs.userRooms s).isSome = true

/-- Every room name the tracker maps a session to has an entry in the room registry. -/
def TrackedRoomsExist (cs : TelnetChatServer) : Prop :=
  ∀ (s : Session) (r : String), cs.userRooms s = some r → (cs.rooms r).isSome = true

/-! ## Lemmas about the handlers -/

theorem leaveScan_eq_none {s : Session} {l : List Session} :
    leaveScan s l = none ↔ s ∉ l := by
  induction l with
  | nil => simp [leaveScan]
  | cons w ws ih =>
    by_cases h : w = s
    · simp [leaveScan, h]
    · have h' : ¬ s = w := fun e => h e.symm
      simp [leaveScan, h, h', ih]

theorem leaveScan_erase {s : Session} {l : List Session} {i : Nat}
    (h : leaveScan s l = some i) : l.take i ++ l.drop (i + 1) = l.erase s := by
  induction l generalizing i with
  | nil => simp [leaveScan] at h
  | cons w ws ih =>
    by_cases hw : w = s
    · subst hw
      simp [leaveScan] at h
      subst h
      simp
    · simp only [leaveScan, hw, if_false, Option.map_eq_some'] at h
      obtain ⟨j, hj, rfl⟩ := h
      have := ih hj
      simp [List.erase_cons_tail, hw, this]

theorem sendLoop_eq_filter (s : Session) (p : String) (l : List Session) :
    sendLoop s p l = (l.filter (fun w => decide (w ≠ s))).map (fun w => (w, p)) := by
  induction l with
  | nil => simp [sendLoop]
  | cons w ws ih =>
    by_cases h : w = s
    · simp [sendLoop, h, ih]
    · simp [sendLoop, h, ih]

theorem JoinHandlerFunc_members (cs : TelnetChatServer) (s : Session) (room : String)
    (rest : List String) (r : String) :
    members (JoinHandlerFunc cs s (room :: rest)).cs r =
      if r = room then members cs room ++ [s] else members cs r := by
  cases h : cs.rooms room <;> by_cases hr : r = room <;>
    simp [JoinHandlerFunc, members, assign, h, hr]

theorem JoinHandlerFunc_userRooms (cs : TelnetChatServer) (s : Session) (room : String)
    (rest : List String) (t : Session) :
    (JoinHandlerFunc cs s (room :: rest)).cs.userRooms t =
      if t = s then some room else cs.userRooms t := by
  cases h : cs.rooms room <;> simp [JoinHandlerFunc, assign, h]

theorem JoinHandlerFunc_nil (cs : TelnetChatServer) (s : Session) :
    (JoinHandlerFunc cs s []).cs = cs := rfl

theorem LeaveHandlerFunc_userRooms (cs : TelnetChatServer) (s : Session) (args : List String) :
    (LeaveHandlerFunc cs s args).cs.userRooms = cs.userRooms := by
  cases hu : cs.userRooms s with
  | none => simp only [LeaveHandlerFunc, hu]
  | some room =>
    cases hs : leaveScan s (members cs room) <;> simp only [LeaveHandlerFunc, hu, hs]

theorem LeaveHandlerFunc_members (cs : TelnetChatServer) (s : Session) (args : List String)
    (r : String) :
    members (LeaveHandlerFunc cs s args).cs r =
      if cs.userRooms s = some r then (members cs r).erase s else members cs r := by
  cases hu : cs.userRooms s with
  | none => simp [LeaveHandlerFunc, hu]
  | some room =>
    cases hs : leaveScan s (members cs room) with
    | none =>
      have hnot := leaveScan_eq_none.mp hs
      simp only [LeaveHandlerFunc, hu, hs]
      by_cases hr : room = r
      · subst hr; simp [List.erase_of_not_mem hnot]
      · simp [hr]
    | some i =>
      have he := leaveScan_erase hs
      simp only [LeaveHandlerFunc, hu, hs]
      by_cases hr : room = r
      · subst hr
        rw [← he]
        simp [members, assign]
      · have hr' : ¬ r = room := fun e => hr e.symm
        simp [members, assign, hr, hr']

theorem SendHandlerFunc_cs (cs : TelnetChatServer) (s : Session) (args : List String) :
    (SendHandlerFunc cs s args).cs = cs := rfl

theorem LeaveHandlerFunc_not_listed (cs : TelnetChatServer) (s : Session) (args : List String)
    (h : ∀ r : String, cs.userRooms s = some r → s ∉ members cs r) :
    LeaveHandlerFunc cs s args =
      { cs := cs, writes := [(s, "Leave Handler Called for room ")], err := none } := by
  cases hu : cs.userRooms s with
  | none => simp only [LeaveHandlerFunc, hu]
  | some room =>
    have hs := leaveScan_eq_none.mpr (h room hu)
    simp only [LeaveHandlerFunc, hu, hs]

theorem LeaveHandlerFunc_listed (cs : TelnetChatServer) (s : Session) (args : List String)
    (r : String) (hu : cs.userRooms s = some r) (hm : s ∈ members cs r) :
    LeaveHandlerFunc cs s args =
      { cs := { rooms := assign cs.rooms r ((members cs r).erase s),
                userRooms := cs.userRooms },
        writes := [(s, "Leave Handler Called for room "), (s, "Left room " ++ r)],
        err := none } := by
  cases hs : leaveScan s (members cs r) with
  | none => exact absurd hm (leaveScan_eq_none.mp hs)
  | some i =>
    have he := leaveScan_erase hs
    simp only [LeaveHandlerFunc, hu, hs, he]

theorem assign_isSome {κ ν : Type} [DecidableEq κ] (m : κ → Option ν) (k : κ) (v : ν)
    (k' : κ) (h : (m k').isSome = true) : (assign m k v k').isSome = true := by
  unfold assign
  split_ifs
  · rfl
  · exact h

theorem step_rooms_isSome (cs : TelnetChatServer) (c : Cmd) (r : String)
    (h : (cs.rooms r).isSome = true) : ((step cs c).cs.rooms r).isSome = true := by
  cases c with
  | join s args =>
    cases args with
    | nil => exact h
    | cons room rest =>
      cases hr : cs.rooms room <;> simp only [step, JoinHandlerFunc, hr] <;>
        exact assign_isSome _ _ _ _ h
  | leave s args =>
    cases hu : cs.userRooms s with
    | none => simpa only [step, LeaveHandlerFunc, hu] using h
    | some room =>
      cases hs : leaveScan s (members cs room) with
      | none => simpa only [step, LeaveHandlerFunc, hu, hs] using h
      | some i =>
        simp only [step, LeaveHandlerFunc, hu, hs]
        exact assign_isSome _ _ _ _ h
  | send s args => exact h

theorem sendLoopUnder_calls (write : Session → String → Option String) (s : Session)
    (p : String) (l : List Session) :
    (sendLoopUnder write s p l).map (fun c => (c.writer, c.bytes)) = sendLoop s p l := by
  induction l with
  | nil => rfl
  | cons w ws ih =>
    by_cases h : w = s
    · simp [sendLoopUnder, sendLoop, h, ih]
    · simp [sendLoopUnder, sendLoop, h, ih]

/-! ## Invariants along a run -/

theorem members_NewChatServer (r : String) : members NewChatServer r = [] := rfl

theorem MembersTracked_step {cs : TelnetChatServer} {c : Cmd} (h : MembersTracked cs)
    (hj : match c with
      | .join stdout (_ :: _) => ∀ room : String, stdout ∉ members cs room
      | _ => True) :
    MembersTracked (step cs c).cs := by
  cases c with
  | join s args =>
    cases args with
    | nil => exact h
    | cons room rest =>
      intro r t ht
      simp only [step, JoinHandlerFunc_members, JoinHandlerFunc_userRooms] at ht ⊢
      by_cases hr : r = room
      · subst hr
        by_cases hts : t = s
        · simp [hts]
        · simp only [if_true, List.mem_append, List.mem_singleton, hts, or_false] at ht
          simp [hts, h r t ht]
      · simp only [hr, if_false] at ht
        have hts : t ≠ s := fun e => hj r (e ▸ ht)
        simp [hts, h r t ht]
  | leave s args =>
    intro r t ht
    simp only [step, LeaveHandlerFunc_members, LeaveHandlerFunc_userRooms] at ht ⊢
    split_ifs at ht
    · exact h r t (List.mem_of_mem_erase ht)
    · exact h r t ht
  | send s args => exact h

theorem MembersTracked_run (cmds : List Cmd) :
    ∀ cs : TelnetChatServer, MembersTracked cs → JoinsFromOutside cs cmds →
      MembersTracked (run cs cmds) := by
  induction cmds with
  | nil => intro cs h _; exact h
  | cons c rest ih => intro cs h hj; exact ih _ (MembersTracked_step h hj.1) hj.2

theorem NoDuplicates_step {cs : TelnetChatServer} {c : Cmd} (h : NoDuplicates cs)
    (hj : match c with
      | .join stdout (_ :: _) => ∀ room : String, stdout ∉ members cs room
      | _ => True) :
    NoDuplicates (step cs c).cs := by
  cases c with
  | join s args =>
    cases args with
    | nil => exact h
    | cons room rest =>
      intro r
      simp only [step, JoinHandlerFunc_members]
      by_cases hr : r = room
      · subst hr
        simp only [if_true]
        exact List.Nodup.append (h r) (List.nodup_singleton s)
          (by
            intro a ha hs
            rw [List.mem_singleton] at hs
            exact hj r (hs ▸ ha))
      · simpa [hr] using h r
  | leave s args =>
    intro r
    simp only [step, LeaveHandlerFunc_members]
    split_ifs
    · exact (h r).erase s
    · exact h r
  | send s args => exact h

theorem NoDuplicates_run (cmds : List Cmd) :
    ∀ cs : TelnetChatServer, NoDuplicates cs → JoinsFromOutside cs cmds →
      NoDuplicates (run cs cmds) := by
  induction cmds with
  | nil => intro cs h _; exact h
  | cons c rest ih => intro cs h hj; exact ih _ (NoDuplicates_step h hj.1) hj.2

theorem TrackedMembers_step {cs : TelnetChatServer} {c : Cmd} (h : TrackedMembers cs)
    (hl : c.isLeave = false) : TrackedMembers (step cs c).cs := by
  cases c with
  | join s args =>
    cases args with
    | nil => exact h
    | cons room rest =>
      intro r t ht
      simp only [step, JoinHandlerFunc_members, JoinHandlerFunc_userRooms] at ht ⊢
      by_cases hts : t = s
      · simp only [hts, if_true, Option.some.injEq] at ht
        simp [← ht, hts]
      · simp only [hts, if_false] at ht
        have := h r t ht
        by_cases hr : r = room
        · subst hr; simp [this]
        · simp [hr, this]
  | leave s args => simp [Cmd.isLeave] at hl
  | send s args => exact h

theorem TrackedMembers_run (cmds : List Cmd) :
    ∀ cs : TelnetChatServer, TrackedMembers cs → NoLeave cmds →
      TrackedMembers (run cs cmds) := by
  induction cmds with
  | nil => intro cs h _; exact h
  | cons c rest ih =>
    intro cs h hn
    exact ih _ (TrackedMembers_step h (hn c (List.mem_cons_self c rest)))
      (fun d hd => hn d (List.mem_cons_of_mem c hd))

theorem MembersTracked_new : MembersTracked NewChatServer := by
  intro r s hs; simp [members_NewChatServer] at hs

theorem NoDuplicates_new : NoDuplicates NewChatServer := by
  intro r; simp [members_NewChatServer]

theorem TrackedMembers_new : TrackedMembers NewChatServer := by
  intro r s hs; simp [NewChatServer] at hs

theorem MembersHaveEntry_step {cs : TelnetChatServer} (c : Cmd) (h : MembersHaveEntry cs) :
    MembersHaveEntry (step cs c).cs := by
  cases c with
  | join s args =>
    cases args with
    | nil => exact h
    | cons room rest =>
      intro r t ht
      simp only [step, JoinHandlerFunc_members, JoinHandlerFunc_userRooms] at ht ⊢
      by_cases hts : t = s
      · simp [hts]
      · simp only [hts, if_false]
        by_cases hr : r = room
        · subst hr
          simp only [if_true, List.mem_append, List.mem_singleton, hts, or_false] at ht
          exact h r t ht
        · simp only [hr, if_false] at ht
          exact h r t ht
  | leave s args =>
    intro r t ht
    simp only [step, LeaveHandlerFunc_members, LeaveHandlerFunc_userRooms] at ht ⊢
    split_ifs at ht
    · exact h r t (List.mem_of_mem_erase ht)
    · exact h r t ht
  | send s args => exact h

theorem TrackedRoomsExist_step {cs : TelnetChatServer} (c : Cmd) (h : TrackedRoomsExist cs) :
    TrackedRoomsExist (step cs c).cs := by
  cases c with
  | join s args =>
    cases args with
    | nil => exact h
    | cons room rest =>
      intro t r ht
      by_cases hts : t = s
      · simp only [step, JoinHandlerFunc_userRooms, hts, if_true, Option.some.injEq] at ht
        subst ht
        cases hr : cs.rooms room <;> simp [step, JoinHandlerFunc, hr, assign]
      · simp only [step, JoinHandlerFunc_userRooms, hts, if_false] at ht
        exact step_rooms_isSome cs (.join s (room :: rest)) r (h t r ht)
  | leave s args =>
    intro t r ht
    simp only [step, LeaveHandlerFunc_userRooms] at ht
    exact step_rooms_isSome cs (.leave s args) r (h t r ht)
  | send s args => exact h

theorem referential_integrity_run (cmds : List Cmd) :
    ∀ cs : TelnetChatServer, MembersHaveEntry cs → TrackedRoomsExist cs →
      MembersHaveEntry (run cs cmds) ∧ TrackedRoomsExist (run cs cmds) := by
  induction cmds with
  | nil => intro cs h₁ h₂; exact ⟨h₁, h₂⟩
  | cons c rest ih =>
    intro cs h₁ h₂
    exact ih _ (MembersHaveEntry_step c h₁) (TrackedRoomsExist_step c h₂)

theorem MembersHaveEntry_new : MembersHaveEntry NewChatServer := by
  intro r s hs; simp [members_NewChatServer] at hs

theorem TrackedRoomsExist_new : TrackedRoomsExist NewChatServer := by
  intro s r hs; simp [NewChatServer] at hs

theorem sendLoop_count (s : Session) (p : String) (l : List Session) (t : Session) :
    (sendLoop s p l).count (t, p) = if t = s then 0 else l.count t := by
  induction l with
  | nil => simp [sendLoop]
  | cons w ws ih =>
    by_cases hw : w = s
    · subst hw
      by_cases ht : t = w
      · subst ht
        simpa [sendLoop] using ih
      · have ht' : ¬ w = t := fun e => ht e.symm
        simp [sendLoop, ih, ht, List.count_cons, ht']
    · by_cases ht : t = s
      · subst ht
        have : ¬ (w, p) = (t, p) := fun e => hw (Prod.mk.inj e).1
        simp [sendLoop, hw, ih, List.count_cons, this]
      · by_cases hwt : w = t
        · subst hwt
          simp [sendLoop, hw, ih, List.count_cons]
        · have : ¬ (w, p) = (t, p) := fun e => hwt (Prod.mk.inj e).1
          simp [sendLoop, hw, ih, ht, List.count_cons, this, hwt]

/-! ## C1: invariant I1 -/

/-- Claim C1 as stated fails on reachable states.  After Join(0, "lobby") and
Join(0, "office") session 0 is still listed in "lobby" while the tracker maps it to
"office"; after Join(0, "lobby") and Leave(0) the tracker still maps session 0 to
"lobby" although it is no longer listed there. -/
theorem C1_counterexample :
    ¬ MembersIffTracked (run NewChatServer [.join 0 ["lobby"], .join 0 ["office"]]) ∧
    ¬ MembersIffTracked (run NewChatServer [.join 0 ["lobby"], .leave 0 []]) := by
  constructor
  · intro h
    have h1 := (h "lobby" 0).mp (by decide)
    revert h1
    decide
  · intro h
    have h1 := (h "lobby" 0).mpr (by decide)
    revert h1
    decide

/-- Claim C1 (amended): along every sequence of Join, Leave and Send calls from the
empty registry in which each Join is issued by a session that is at that moment in no
room's member collection, a session listed in `rooms[r]` is mapped to `r` by the
tracker; if the sequence moreover contains no Leave, a session is listed in `rooms[r]`
if and only if the tracker maps it to `r`. -/
theorem C1_members_tracked_when_joining_from_outside (cmds : List Cmd)
    (h : JoinsFromOutside NewChatServer cmds) :
    MembersTracked (run NewChatServer cmds) ∧
    (NoLeave cmds → MembersIffTracked (run NewChatServer cmds)) := by
  have hfwd := MembersTracked_run cmds NewChatServer MembersTracked_new h
  refine ⟨hfwd, fun hn r s => ⟨hfwd r s, ?_⟩⟩
  exact TrackedMembers_run cmds NewChatServer TrackedMembers_new hn r s

/-- Claim C1 (amended) at the run Join(0, "lobby"), Join(1, "lobby"), Send(0, "hi"). -/
theorem C1_members_tracked_witness :
    JoinsFromOutside NewChatServer [.join 0 ["lobby"], .join 1 ["lobby"], .send 0 ["hi"]] ∧
    NoLeave [.join 0 ["lobby"], .join 1 ["lobby"], .send 0 ["hi"]] ∧
    MembersIffTracked (run NewChatServer [.join 0 ["lobby"], .join 1 ["lobby"], .send 0 ["hi"]]) := by
  have hj : JoinsFromOutside NewChatServer
      [.join 0 ["lobby"], .join 1 ["lobby"], .send 0 ["hi"]] := by
    refine ⟨fun room => by simp [members_NewChatServer], ?_, trivial, trivial⟩
    intro room
    simp only [step, JoinHandlerFunc_members, members_NewChatServer]
    split_ifs <;> simp
  have hn : NoLeave [.join 0 ["lobby"], .join 1 ["lobby"], .send 0 ["hi"]] := by
    intro c hc
    simp only [List.mem_cons, List.mem_singleton, List.not_mem_nil, or_false] at hc
    rcases hc with rfl | rfl | rfl <;> rfl
  exact ⟨hj, hn, (C1_members_tracked_when_joining_from_outside _ hj).2 hn⟩

/-! ## C2: invariant I2 -/

/-- Claim C2 as stated fails: after Join(0, "lobby") followed by Join(0, "office"),
session 0 is listed in both rooms, and in particular is still listed in "lobby". -/
theorem C2_counterexample :
    ¬ AtMostOneRoom (run NewChatServer [.join 0 ["lobby"], .join 0 ["office"]]) ∧
    0 ∈ members (run NewChatServer [.join 0 ["lobby"], .join 0 ["office"]]) "lobby" := by
  refine ⟨fun h => ?_, by decide⟩
  have h1 := h 0 "lobby" "office" (by decide) (by decide)
  revert h1
  decide

/-- Claim C2 (amended): along every sequence of Join, Leave and Send calls from the
empty registry in which each Join is issued by a session that is at that moment in no
room's member collection, every session is listed in at most one room.  Join itself
removes nothing: after Join(Z, "lobby") followed by Join(Z, "office") the members of
"lobby" are still [Z], the members of "office" are [Z] and the tracker maps Z to
"office"; with a Leave(Z) in between, "lobby" is empty. -/
theorem C2_at_most_one_room_when_joining_from_outside (cmds : List Cmd)
    (h : JoinsFromOutside NewChatServer cmds) (Z : Session) :
    AtMostOneRoom (run NewChatServer cmds) ∧
    (members (run NewChatServer [.join Z ["lobby"], .join Z ["office"]]) "lobby" = [Z] ∧
      members (run NewChatServer [.join Z ["lobby"], .join Z ["office"]]) "office" = [Z] ∧
      (run NewChatServer [.join Z ["lobby"], .join Z ["office"]]).userRooms Z = some "office") ∧
    (members (run NewChatServer [.join Z ["lobby"], .leave Z [], .join Z ["office"]]) "lobby" = [] ∧
      members (run NewChatServer [.join Z ["lobby"], .leave Z [], .join Z ["office"]]) "office" = [Z] ∧
      (run NewChatServer [.join Z ["lobby"], .leave Z [], .join Z ["office"]]).userRooms Z
        = some "office") := by
  have hfwd := MembersTracked_run cmds NewChatServer MembersTracked_new h
  refine ⟨fun s r₁ r₂ h₁ h₂ => ?_, ?_, ?_⟩
  · have e := (hfwd r₁ s h₁).symm.trans (hfwd r₂ s h₂)
    exact Option.some.inj e
  · simp [run, step, JoinHandlerFunc_members, JoinHandlerFunc_userRooms, members_NewChatServer]
  · simp [run, step, JoinHandlerFunc_members, JoinHandlerFunc_userRooms,
      LeaveHandlerFunc_members, members_NewChatServer]

/-- Claim C2 (amended) at the run Join(0, "lobby"), Leave(0), Join(0, "office"). -/
theorem C2_at_most_one_room_witness :
    JoinsFromOutside NewChatServer [.join 0 ["lobby"], .leave 0 [], .join 0 ["office"]] ∧
    AtMostOneRoom (run NewChatServer [.join 0 ["lobby"], .leave 0 [], .join 0 ["office"]]) := by
  have hj : JoinsFromOutside NewChatServer
      [.join 0 ["lobby"], .leave 0 [], .join 0 ["office"]] := by
    refine ⟨fun room => by simp [members_NewChatServer], trivial, ?_, trivial⟩
    intro room
    simp only [step, JoinHandlerFunc_members, JoinHandlerFunc_userRooms,
      LeaveHandlerFunc_members, members_NewChatServer]
    split_ifs <;> simp_all
  exact ⟨hj, (C2_at_most_one_room_when_joining_from_outside _ hj 5).1⟩

/-! ## C3: broadcast exclusion -/

/-- Claim C3: for every registry state, every session `S` that the tracker maps to a
room `R`, and every argument list, SendHandlerFunc writes the payload to every session
listed in `rooms[R]` other than `S`, and writes nothing to `S`. -/
theorem C3_broadcast_exclusion (cs : TelnetChatServer) (S : Session) (R : String)
    (args : List String) (h : cs.userRooms S = some R) :
    (∀ t ∈ members cs R, t ≠ S → (t, String.join args) ∈ (SendHandlerFunc cs S args).writes) ∧
    (∀ w ∈ (SendHandlerFunc cs S args).writes, w.1 ≠ S) := by
  have hR : roomOf cs S = R := by simp [roomOf, h]
  simp only [SendHandlerFunc, hR, sendLoop_eq_filter]
  constructor
  · intro t ht hne
    simp only [List.mem_map, List.mem_filter]
    exact ⟨t, ⟨ht, by simpa using hne⟩, rfl⟩
  · intro w hw
    simp only [List.mem_map, List.mem_filter] at hw
    obtain ⟨t, ⟨_, hne⟩, rfl⟩ := hw
    simpa using hne

/-- Claim C3 at the state after Join(0, "lobby"), Join(1, "lobby"), Join(2, "lobby"),
with session 0 sending "hi". -/
theorem C3_broadcast_exclusion_witness :
    (run NewChatServer [.join 0 ["lobby"], .join 1 ["lobby"], .join 2 ["lobby"]]).userRooms 0
        = some "lobby" ∧
    ((∀ t ∈ members (run NewChatServer [.join 0 ["lobby"], .join 1 ["lobby"],
          .join 2 ["lobby"]]) "lobby",
        t ≠ 0 → (t, String.join ["hi"]) ∈ (SendHandlerFunc (run NewChatServer
          [.join 0 ["lobby"], .join 1 ["lobby"], .join 2 ["lobby"]]) 0 ["hi"]).writes) ∧
      (∀ w ∈ (SendHandlerFunc (run NewChatServer [.join 0 ["lobby"], .join 1 ["lobby"],
          .join 2 ["lobby"]]) 0 ["hi"]).writes, w.1 ≠ 0)) :=
  ⟨by decide, C3_broadcast_exclusion _ 0 "lobby" ["hi"] (by decide)⟩

/-! ## C4: isolation across rooms -/

/-- Claim C4 as stated fails on a reachable state: after Join(0, "A"), Join(0, "B"),
Join(1, "A") the tracker maps session 1 to "A" and session 0 to "B", yet a Send by
session 1 writes to session 0, which is still listed in "A". -/
theorem C4_counterexample :
    ¬ Isolated (run NewChatServer [.join 0 ["A"], .join 0 ["B"], .join 1 ["A"]]) := by
  intro h
  exact h 1 "A" ["hi"] (by decide) (0, "hi") (by decide) "B" (by decide) (by decide)

/-- Claim C4 (amended): in every state reached from the empty registry by a sequence
of Join, Leave and Send calls in which each Join is issued by a session that is at that
moment in no room's member collection, a Send by a session whose tracker entry is room
`A` writes to no session whose tracker entry is a different room `B`. -/
theorem C4_isolation_when_joining_from_outside (cmds : List Cmd)
    (h : JoinsFromOutside NewChatServer cmds) : Isolated (run NewChatServer cmds) := by
  have hfwd := MembersTracked_run cmds NewChatServer MembersTracked_new h
  intro S A args hS w hw B hB hwB
  have hA : roomOf (run NewChatServer cmds) S = A := by simp [roomOf, hS]
  simp only [SendHandlerFunc, hA, sendLoop_eq_filter, List.mem_map, List.mem_filter] at hw
  obtain ⟨t, ⟨ht, _⟩, rfl⟩ := hw
  have e := (hfwd A t ht).symm.trans hwB
  exact hB (Option.some.inj e).symm

/-- Claim C4 (amended) at the run Join(0, "A"), Join(1, "B"), Join(2, "A"). -/
theorem C4_isolation_witness :
    JoinsFromOutside NewChatServer [.join 0 ["A"], .join 1 ["B"], .join 2 ["A"]] ∧
    Isolated (run NewChatServer [.join 0 ["A"], .join 1 ["B"], .join 2 ["A"]]) := by
  have hj : JoinsFromOutside NewChatServer [.join 0 ["A"], .join 1 ["B"], .join 2 ["A"]] := by
    refine ⟨fun room => by simp [members_NewChatServer], ?_, ?_, trivial⟩
    · intro room
      simp only [step, JoinHandlerFunc_members, members_NewChatServer]
      split_ifs <;> simp
    · intro room
      simp only [step, JoinHandlerFunc_members, members_NewChatServer]
      split_ifs <;> simp_all
  exact ⟨hj, C4_isolation_when_joining_from_outside _ hj⟩

/-! ## C5: what Leave does to the two maps -/

/-- Claim C5 as stated fails.  After Join(0, "lobby") the tracker maps session 0 to
"lobby", and it still does after Leave(0).  After Join(0, "lobby") twice, session 0 is
still listed in "lobby" after Leave(0). -/
theorem C5_counterexample :
    ((run NewChatServer [.join 0 ["lobby"]]).userRooms 0 = some "lobby" ∧
      ¬ (LeaveHandlerFunc (run NewChatServer [.join 0 ["lobby"]]) 0 []).cs.userRooms 0 = none) ∧
    ((run NewChatServer [.join 0 ["lobby"], .join 0 ["lobby"]]).userRooms 0 = some "lobby" ∧
      0 ∈ members (LeaveHandlerFunc (run NewChatServer
        [.join 0 ["lobby"], .join 0 ["lobby"]]) 0 []).cs "lobby") := by
  decide

/-- Claim C5 (amended): for every registry state and session `s` whose tracker entry is
a room `r`, after LeaveHandlerFunc(s) the member list of `r` is the previous one with
the first entry equal to `s` removed, so `s` no longer occurs in it whenever it occurred
at most once before; the tracker is left as it was and still maps `s` to `r`. -/
theorem C5_leave_removes_first_entry_and_keeps_tracker (cs : TelnetChatServer)
    (s : Session) (r : String) (args : List String) (h : cs.userRooms s = some r) :
    members (LeaveHandlerFunc cs s args).cs r = (members cs r).erase s ∧
    ((members cs r).count s ≤ 1 → s ∉ members (LeaveHandlerFunc cs s args).cs r) ∧
    (LeaveHandlerFunc cs s args).cs.userRooms = cs.userRooms ∧
    (LeaveHandlerFunc cs s args).cs.userRooms s = some r := by
  have hm : members (LeaveHandlerFunc cs s args).cs r = (members cs r).erase s := by
    rw [LeaveHandlerFunc_members, if_pos h]
  refine ⟨hm, fun hc => ?_, LeaveHandlerFunc_userRooms cs s args, ?_⟩
  · rw [hm, ← List.count_eq_zero, List.count_erase_self]
    omega
  · rw [LeaveHandlerFunc_userRooms]; exact h

/-- Claim C5 (amended) at the state after Join(0, "lobby"), Join(1, "lobby"), with
session 0 leaving. -/
theorem C5_leave_witness :
    (run NewChatServer [.join 0 ["lobby"], .join 1 ["lobby"]]).userRooms 0 = some "lobby" ∧
    members (LeaveHandlerFunc (run NewChatServer [.join 0 ["lobby"], .join 1 ["lobby"]])
      0 []).cs "lobby" = [1] ∧
    (LeaveHandlerFunc (run NewChatServer [.join 0 ["lobby"], .join 1 ["lobby"]])
      0 []).cs.userRooms 0 = some "lobby" := by
  have h := C5_leave_removes_first_entry_and_keeps_tracker
    (run NewChatServer [.join 0 ["lobby"], .join 1 ["lobby"]]) 0 "lobby" [] (by decide)
  exact ⟨by decide, h.1.trans (by decide), h.2.2.2⟩

/-! ## C6: Send from a session without a tracker entry -/

/-- Claim C6 at its failing input: after Join(1, [""]) session 2 has no tracker entry,
yet SendHandlerFunc(2, ["hi"]) writes "hi" to session 1.  The lookup
`cs.userRooms[stdout]` yields the empty string for an absent key, which is the name of
the room session 1 joined. -/
theorem C6_send_without_entry_reaches_empty_named_room :
    Reachable (run NewChatServer [.join 1 [""]]) ∧
    (run NewChatServer [.join 1 [""]]).userRooms 2 = none ∧
    (SendHandlerFunc (run NewChatServer [.join 1 [""]]) 2 ["hi"]).writes = [(1, "hi")] :=
  ⟨⟨_, rfl⟩, by decide, by decide⟩

/-! ## C7: scenario 3, Send after Leave -/

/-- Claim C7 as stated fails: after Join(0, "lobby"), Join(1, "lobby"), Leave(0), the
call Send(0, "hi") writes "hi" to session 1. -/
theorem C7_counterexample :
    ¬ (∀ t : Session, (t, "hi") ∉ (SendHandlerFunc (run NewChatServer
        [.join 0 ["lobby"], .join 1 ["lobby"], .leave 0 []]) 0 ["hi"]).writes) := by
  intro h
  exact h 1 (by decide)

/-- Claim C7 (amended): for distinct sessions X and Y, after Join(X, "lobby"),
Join(Y, "lobby"), Leave(X) the members of "lobby" are exactly [Y] and the tracker still
maps X to "lobby"; a subsequent Send(X, "hi") writes "hi" to Y, writes nothing else (in
particular nothing to X), and leaves the members of "lobby" at [Y]. -/
theorem C7_send_after_leave (X Y : Session) (h : X ≠ Y) :
    members (run NewChatServer [.join X ["lobby"], .join Y ["lobby"], .leave X []]) "lobby"
      = [Y] ∧
    (run NewChatServer [.join X ["lobby"], .join Y ["lobby"], .leave X []]).userRooms X
      = some "lobby" ∧
    (SendHandlerFunc (run NewChatServer [.join X ["lobby"], .join Y ["lobby"], .leave X []])
      X ["hi"]).writes = [(Y, "hi")] ∧
    members (SendHandlerFunc (run NewChatServer
      [.join X ["lobby"], .join Y ["lobby"], .leave X []]) X ["hi"]).cs "lobby" = [Y] := by
  have hYX : ¬ Y = X := fun e => h e.symm
  have hu : (run NewChatServer [.join X ["lobby"], .join Y ["lobby"], .leave X []]).userRooms X
      = some "lobby" := by
    simp [run, step, LeaveHandlerFunc_userRooms, JoinHandlerFunc_userRooms, h]
  have hm : members (run NewChatServer [.join X ["lobby"], .join Y ["lobby"], .leave X []])
      "lobby" = [Y] := by
    simp [run, step, LeaveHandlerFunc_members, JoinHandlerFunc_members,
      JoinHandlerFunc_userRooms, members_NewChatServer, h]
  refine ⟨hm, hu, ?_, hm⟩
  have hr : roomOf (run NewChatServer [.join X ["lobby"], .join Y ["lobby"], .leave X []]) X
      = "lobby" := by simp [roomOf, hu]
  have hp : String.join ["hi"] = "hi" := by decide
  simp only [SendHandlerFunc, hr, hm, hp, sendLoop]
  simp [hYX]

/-- Claim C7 (amended) at X = 0, Y = 1. -/
theorem C7_send_after_leave_witness :
    (0 : Session) ≠ 1 ∧
    (SendHandlerFunc (run NewChatServer [.join 0 ["lobby"], .join 1 ["lobby"], .leave 0 []])
      0 ["hi"]).writes = [(1, "hi")] :=
  ⟨by decide, (C7_send_after_leave 0 1 (by decide)).2.2.1⟩

/-! ## C8: Leave twice -/

/-- Claim C8 as stated fails on a reachable state: after Join(0, "a") twice, a second
Leave(0) removes a further entry, so the registry differs from the one after the first
Leave(0), and the second call reports "Left room a". -/
theorem C8_counterexample :
    (LeaveHandlerFunc (LeaveHandlerFunc (run NewChatServer [.join 0 ["a"], .join 0 ["a"]])
        0 []).cs 0 []).cs
      ≠ (LeaveHandlerFunc (run NewChatServer [.join 0 ["a"], .join 0 ["a"]]) 0 []).cs ∧
    (LeaveHandlerFunc (LeaveHandlerFunc (run NewChatServer [.join 0 ["a"], .join 0 ["a"]])
        0 []).cs 0 []).writes
      = [(0, "Leave Handler Called for room "), (0, "Left room a")] := by
  refine ⟨fun e => ?_, by decide⟩
  have e1 := congrArg (fun c => members c "a") e
  revert e1
  decide

/-- Claim C8 (amended): for every registry state and session `s` that is listed at most
once in the member collection of the room the tracker maps it to, the registry (both
maps) after two consecutive LeaveHandlerFunc(s) calls equals the registry after one
call; the second call writes only "Leave Handler Called for room " (it reports no room
being left) and returns no error. -/
theorem C8_leave_twice_when_listed_at_most_once (cs : TelnetChatServer) (s : Session)
    (args₁ args₂ : List String)
    (h : ∀ r : String, cs.userRooms s = some r → (members cs r).count s ≤ 1) :
    (LeaveHandlerFunc (LeaveHandlerFunc cs s args₁).cs s args₂).cs
      = (LeaveHandlerFunc cs s args₁).cs ∧
    (LeaveHandlerFunc (LeaveHandlerFunc cs s args₁).cs s args₂).writes
      = [(s, "Leave Handler Called for room ")] ∧
    (LeaveHandlerFunc (LeaveHandlerFunc cs s args₁).cs s args₂).err = none := by
  have hgone : ∀ r : String, (LeaveHandlerFunc cs s args₁).cs.userRooms s = some r →
      s ∉ members (LeaveHandlerFunc cs s args₁).cs r := by
    intro r hr
    rw [LeaveHandlerFunc_userRooms] at hr
    rw [LeaveHandlerFunc_members, if_pos hr, ← List.count_eq_zero, List.count_erase_self]
    have := h r hr
    omega
  rw [LeaveHandlerFunc_not_listed _ s args₂ hgone]
  exact ⟨rfl, rfl, rfl⟩

/-- Claim C8 (amended) at the state after Join(0, "a"), Join(1, "a"), for session 0. -/
theorem C8_leave_twice_witness :
    (∀ r : String, (run NewChatServer [.join 0 ["a"], .join 1 ["a"]]).userRooms 0 = some r →
      (members (run NewChatServer [.join 0 ["a"], .join 1 ["a"]]) r).count 0 ≤ 1) ∧
    (LeaveHandlerFunc (LeaveHandlerFunc (run NewChatServer [.join 0 ["a"], .join 1 ["a"]])
        0 []).cs 0 []).cs
      = (LeaveHandlerFunc (run NewChatServer [.join 0 ["a"], .join 1 ["a"]]) 0 []).cs := by
  have hc : ∀ r : String, (run NewChatServer [.join 0 ["a"], .join 1 ["a"]]).userRooms 0
      = some r → (members (run NewChatServer [.join 0 ["a"], .join 1 ["a"]]) r).count 0 ≤ 1 := by
    intro r hr
    have hr' : r = "a" := by
      have e : (run NewChatServer [.join 0 ["a"], .join 1 ["a"]]).userRooms 0 = some "a" := by
        decide
      exact (Option.some.inj (e.symm.trans hr)).symm
    subst hr'
    decide
  exact ⟨hc, (C8_leave_twice_when_listed_at_most_once _ 0 [] [] hc).1⟩

/-! ## C9: invariant I3 -/

/-- Claim C9 as stated fails on a reachable state: after Join(0, "a") twice the member
collection of "a" lists session 0 twice. -/
theorem C9_counterexample :
    ¬ NoDuplicates (run NewChatServer [.join 0 ["a"], .join 0 ["a"]]) ∧
    members (run NewChatServer [.join 0 ["a"], .join 0 ["a"]]) "a" = [0, 0] := by
  refine ⟨fun h => ?_, by decide⟩
  have h1 := h "a"
  revert h1
  decide

/-- Claim C9 (amended): in every state reached from the empty registry by a sequence
of Join, Leave and Send calls in which each Join is issued by a session that is at that
moment in no room's member collection, no room's member collection lists a session
twice.  JoinHandlerFunc itself does not look for an existing entry: every Join(s, r)
raises the number of entries for `s` in `rooms[r]` by one. -/
theorem C9_no_duplicates_when_joining_from_outside (cmds : List Cmd)
    (h : JoinsFromOutside NewChatServer cmds) :
    NoDuplicates (run NewChatServer cmds) ∧
    ∀ (cs : TelnetChatServer) (s : Session) (r : String) (rest : List String),
      (members (JoinHandlerFunc cs s (r :: rest)).cs r).count s = (members cs r).count s + 1 := by
  refine ⟨NoDuplicates_run cmds NewChatServer NoDuplicates_new h, fun cs s r rest => ?_⟩
  rw [JoinHandlerFunc_members, if_pos rfl, List.count_append, List.count_singleton_self]

/-- Claim C9 (amended) at the run Join(0, "a"), Leave(0), Join(0, "a"). -/
theorem C9_no_duplicates_witness :
    JoinsFromOutside NewChatServer [.join 0 ["a"], .leave 0 [], .join 0 ["a"]] ∧
    NoDuplicates (run NewChatServer [.join 0 ["a"], .leave 0 [], .join 0 ["a"]]) := by
  have hj : JoinsFromOutside NewChatServer [.join 0 ["a"], .leave 0 [], .join 0 ["a"]] := by
    refine ⟨fun room => by simp [members_NewChatServer], trivial, ?_, trivial⟩
    intro room
    simp only [step, JoinHandlerFunc_members, JoinHandlerFunc_userRooms,
      LeaveHandlerFunc_members, members_NewChatServer]
    split_ifs <;> simp_all
  exact ⟨hj, (C9_no_duplicates_when_joining_from_outside _ hj).1⟩

/-! ## C10: Join postcondition -/

/-- Claim C10: for every registry state, session `s` and argument list with first
element `r` (any string), JoinHandlerFunc returns no error; afterwards `rooms[r]` is the
previous member list of `r` (empty when `r` had no entry) with `s` appended and every
other room is as before, `userRooms[s]` is `r` and every other session's entry is as
before.  From the empty registry, the members of "lobby" are exactly [X] after
Join(X, "lobby"). -/
theorem C10_join_postcondition (cs : TelnetChatServer) (s : Session) (r : String)
    (rest : List String) (X : Session) :
    (JoinHandlerFunc cs s (r :: rest)).err = none ∧
    (JoinHandlerFunc cs s (r :: rest)).cs.rooms
      = (fun r' => if r' = r then some (members cs r ++ [s]) else cs.rooms r') ∧
    (JoinHandlerFunc cs s (r :: rest)).cs.userRooms
      = (fun s' => if s' = s then some r else cs.userRooms s') ∧
    (JoinHandlerFunc cs s ("" :: rest)).cs.userRooms s = some "" ∧
    members (JoinHandlerFunc NewChatServer X ["lobby"]).cs "lobby" = [X] := by
  refine ⟨?_, ?_, ?_, ?_, ?_⟩
  · cases h : cs.rooms r <;> simp [JoinHandlerFunc, h]
  · cases h : cs.rooms r <;> simp only [JoinHandlerFunc, h, members, Option.getD_none,
      Option.getD_some, List.nil_append] <;> rfl
  · cases h : cs.rooms r <;> simp only [JoinHandlerFunc, h] <;> rfl
  · rw [JoinHandlerFunc_userRooms, if_pos rfl]
  · rw [JoinHandlerFunc_members, if_pos rfl, members_NewChatServer]; rfl

/-! ## C11: Join confirmation -/

/-- Claim C11: for every registry state, session `s` and room name `r`,
JoinHandlerFunc(s, r) writes exactly the line "Joined room " + r + "\r\n" to `s` when
`r` has no entry in the room registry before the call, and writes nothing at all when
`r` already has an entry.  An entry with an empty member collection counts: after
Join(0, "a") and Leave(0) the entry of "a" is the empty list, and Join(1, "a") writes
nothing. -/
theorem C11_join_confirmation_only_on_creation (cs : TelnetChatServer) (s : Session)
    (r : String) (rest : List String) :
    (JoinHandlerFunc cs s (r :: rest)).writes
      = (if (cs.rooms r).isSome then [] else [(s, "Joined room " ++ r ++ "\r\n")]) ∧
    (run NewChatServer [.join 0 ["a"], .leave 0 []]).rooms "a" = some [] ∧
    (JoinHandlerFunc (run NewChatServer [.join 0 ["a"], .leave 0 []]) 1 ["a"]).writes = [] := by
  refine ⟨?_, by decide, by decide⟩
  cases h : cs.rooms r <;> simp [JoinHandlerFunc, h]

/-! ## C12: Join without a room name -/

/-- Claim C12: for every registry state and session `s`, JoinHandlerFunc with an empty
argument list writes the usage line "Usage: join <room number>\r\n" to `s` and nothing
else, leaves the room registry and the membership tracker as they were, and returns no
error. -/
theorem C12_join_usage (cs : TelnetChatServer) (s : Session) :
    (JoinHandlerFunc cs s []).writes = [(s, "Usage: join <room number>\r\n")] ∧
    (JoinHandlerFunc cs s []).cs.rooms = cs.rooms ∧
    (JoinHandlerFunc cs s []).cs.userRooms = cs.userRooms ∧
    (JoinHandlerFunc cs s []).err = none :=
  ⟨rfl, rfl, rfl, rfl⟩

/-! ## C13: Leave without a tracker entry -/

/-- Claim C13: for every registry state and every session `s` with no entry in the
membership tracker, LeaveHandlerFunc(s) leaves the room registry and the membership
tracker unchanged, writes to no session other than `s` (its only write is the line
"Leave Handler Called for room " to `s`), and returns no error. -/
theorem C13_leave_when_not_joined (cs : TelnetChatServer) (s : Session) (args : List String)
    (h : cs.userRooms s = none) :
    (LeaveHandlerFunc cs s args).cs = cs ∧
    (∀ w ∈ (LeaveHandlerFunc cs s args).writes, w.1 = s) ∧
    (LeaveHandlerFunc cs s args).writes = [(s, "Leave Handler Called for room ")] ∧
    (LeaveHandlerFunc cs s args).err = none := by
  have hn : ∀ r : String, cs.userRooms s = some r → s ∉ members cs r := by
    intro r hr
    rw [h] at hr
    exact absurd hr (by simp)
  rw [LeaveHandlerFunc_not_listed cs s args hn]
  refine ⟨rfl, ?_, rfl, rfl⟩
  intro w hw
  rw [List.mem_singleton] at hw
  rw [hw]

/-- Claim C13 at the state after Join(0, "lobby"), for session 1. -/
theorem C13_leave_when_not_joined_witness :
    (run NewChatServer [.join 0 ["lobby"]]).userRooms 1 = none ∧
    (LeaveHandlerFunc (run NewChatServer [.join 0 ["lobby"]]) 1 []).cs
      = run NewChatServer [.join 0 ["lobby"]] ∧
    (LeaveHandlerFunc (run NewChatServer [.join 0 ["lobby"]]) 1 []).writes
      = [(1, "Leave Handler Called for room ")] :=
  ⟨by decide,
    (C13_leave_when_not_joined (run NewChatServer [.join 0 ["lobby"]]) 1 [] (by decide)).1,
    (C13_leave_when_not_joined (run NewChatServer [.join 0 ["lobby"]]) 1 [] (by decide)).2.2.1⟩

/-! ## C14: failing writes during Send -/

/-- Claim C14: for every registry state, sender and assignment `write` of a returned
error to each `Write`, the writes SendHandlerFunc attempts are, in order, one to every
entry of the member list of the sender's room that differs from the sender; they are
the writes of the handler as modelled without results, hence the same under any two
assignments; and the handler returns no error.  With members 0, 1, 2 of "lobby" and a
failing write to session 1, a Send by session 0 still writes to session 2. -/
theorem C14_send_ignores_write_failures (write write₂ : Session → String → Option String)
    (cs : TelnetChatServer) (S : Session) (args : List String) :
    (SendHandlerFuncUnder write cs S args).1.map (fun c => (c.writer, c.bytes))
      = ((members cs (roomOf cs S)).filter (fun w => decide (w ≠ S))).map
          (fun w => (w, String.join args)) ∧
    (SendHandlerFuncUnder write cs S args).1.map (fun c => (c.writer, c.bytes))
      = (SendHandlerFunc cs S args).writes ∧
    (SendHandlerFuncUnder write cs S args).1.map (fun c => (c.writer, c.bytes))
      = (SendHandlerFuncUnder write₂ cs S args).1.map (fun c => (c.writer, c.bytes)) ∧
    (SendHandlerFuncUnder write cs S args).2 = none ∧
    (SendHandlerFuncUnder (fun w _ => if w = 1 then some "broken pipe" else none)
        (run NewChatServer [.join 0 ["lobby"], .join 1 ["lobby"], .join 2 ["lobby"]])
        0 ["hi"]).1.map (fun c => (c.writer, c.bytes, c.result))
      = [(1, "hi", some "broken pipe"), (2, "hi", none)] := by
  refine ⟨?_, ?_, ?_, rfl, by decide⟩
  · simp only [SendHandlerFuncUnder, sendLoopUnder_calls, sendLoop_eq_filter]
  · simp only [SendHandlerFuncUnder, SendHandlerFunc, sendLoopUnder_calls]
  · simp only [SendHandlerFuncUnder, sendLoopUnder_calls]

/-! ## C15: room entries are never removed -/

/-- Claim C15: for every registry state and every Join, Leave or Send call, every room
name that has an entry in the room registry before the call still has an entry after
it.  In particular, after Join(X, "lobby") on the empty registry and Leave(X), the room
"lobby" is still in the registry, with an empty member collection. -/
theorem C15_rooms_never_reclaimed (cs : TelnetChatServer) (c : Cmd) (r : String)
    (X : Session) (h : (cs.rooms r).isSome = true) :
    ((step cs c).cs.rooms r).isSome = true ∧
    (run NewChatServer [.join X ["lobby"], .leave X []]).rooms "lobby" = some [] := by
  refine ⟨step_rooms_isSome cs c r h, ?_⟩
  have hu : (JoinHandlerFunc NewChatServer X ["lobby"]).cs.userRooms X = some "lobby" := by
    rw [JoinHandlerFunc_userRooms, if_pos rfl]
  have hm : members (JoinHandlerFunc NewChatServer X ["lobby"]).cs "lobby" = [X] := by
    rw [JoinHandlerFunc_members, if_pos rfl, members_NewChatServer]; rfl
  have hin : X ∈ members (JoinHandlerFunc NewChatServer X ["lobby"]).cs "lobby" := by
    rw [hm]; exact List.mem_singleton_self X
  simp only [run, step]
  rw [LeaveHandlerFunc_listed _ X [] "lobby" hu hin, hm]
  simp [assign]

/-- Claim C15 at the state after Join(0, "lobby"), for the call Leave(0) and the room
"lobby". -/
theorem C15_rooms_never_reclaimed_witness :
    ((run NewChatServer [.join 0 ["lobby"]]).rooms "lobby").isSome = true ∧
    ((step (run NewChatServer [.join 0 ["lobby"]]) (.leave 0 [])).cs.rooms "lobby").isSome
      = true :=
  ⟨by decide,
    (C15_rooms_never_reclaimed (run NewChatServer [.join 0 ["lobby"]]) (.leave 0 []) "lobby" 0
      (by decide)).1⟩

/-! ## C17: what Leave removes and reports -/

/-- Claim C17: for every registry state and session `s` whose tracker entry is `r`: if
`s` occurs in `rooms[r]`, LeaveHandlerFunc removes exactly the first occurrence of `s`
from `rooms[r]` (the list splits as `l₁ ++ s :: l₂` with `s` not in `l₁`, and becomes
`l₁ ++ l₂`), leaves every other room unchanged, and writes to `s` the line
"Leave Handler Called for room " followed by "Left room " + r; if `s` does not occur in
`rooms[r]`, the registry is unchanged and only "Leave Handler Called for room " is
written. -/
theorem C17_leave_removal_and_report (cs : TelnetChatServer) (s : Session) (r : String)
    (args : List String) (h : cs.userRooms s = some r) :
    (s ∈ members cs r →
      ∃ l₁ l₂ : List Session, members cs r = l₁ ++ s :: l₂ ∧ s ∉ l₁ ∧
        (LeaveHandlerFunc cs s args).cs.rooms
          = (fun r' => if r' = r then some (l₁ ++ l₂) else cs.rooms r') ∧
        (LeaveHandlerFunc cs s args).writes
          = [(s, "Leave Handler Called for room "), (s, "Left room " ++ r)]) ∧
    (s ∉ members cs r →
      (LeaveHandlerFunc cs s args).cs = cs ∧
      (LeaveHandlerFunc cs s args).writes = [(s, "Leave Handler Called for room ")]) := by
  constructor
  · intro hm
    obtain ⟨l₁, l₂, hnot, hsplit, herase⟩ := List.exists_erase_eq hm
    refine ⟨l₁, l₂, hsplit, hnot, ?_, ?_⟩
    · rw [LeaveHandlerFunc_listed cs s args r h hm, herase]
      rfl
    · rw [LeaveHandlerFunc_listed cs s args r h hm]
  · intro hm
    have hn : ∀ r' : String, cs.userRooms s = some r' → s ∉ members cs r' := by
      intro r' hr'
      have e : r = r' := Option.some.inj (h.symm.trans hr')
      exact e ▸ hm
    rw [LeaveHandlerFunc_not_listed cs s args hn]
    exact ⟨rfl, rfl⟩

/-- Claim C17 at the state after Join(0, "lobby"), Join(1, "lobby"), Join(0, "lobby"),
where the members of "lobby" are [0, 1, 0]: Leave(0) leaves [1, 0] and reports
"Left room lobby". -/
theorem C17_leave_removal_witness :
    (run NewChatServer [.join 0 ["lobby"], .join 1 ["lobby"], .join 0 ["lobby"]]).userRooms 0
      = some "lobby" ∧
    members (run NewChatServer [.join 0 ["lobby"], .join 1 ["lobby"], .join 0 ["lobby"]])
      "lobby" = [0, 1, 0] ∧
    members (LeaveHandlerFunc (run NewChatServer
      [.join 0 ["lobby"], .join 1 ["lobby"], .join 0 ["lobby"]]) 0 []).cs "lobby" = [1, 0] ∧
    (LeaveHandlerFunc (run NewChatServer
      [.join 0 ["lobby"], .join 1 ["lobby"], .join 0 ["lobby"]]) 0 []).writes
      = [(0, "Leave Handler Called for room "), (0, "Left room " ++ "lobby")] := by
  have h := (C17_leave_removal_and_report (run NewChatServer
    [.join 0 ["lobby"], .join 1 ["lobby"], .join 0 ["lobby"]]) 0 "lobby" []
    (by decide)).1 (by decide)
  obtain ⟨_, _, _, _, _, hw⟩ := h
  exact ⟨by decide, by decide, by decide, hw⟩

/-! ## C18: payload and order of the fan-out -/

/-- Claim C18: for every registry state, session `s` and argument list, the writes of
SendHandlerFunc are, in list order, one write per entry of `rooms[userRooms[s]]` that
differs from `s`, each carrying the arguments concatenated without separator; a
recipient listed `k` times is written `k` times and `s` is written zero times.  With
members [0, 1, 2, 1] of "lobby", Send(0, ["a", "b c"]) writes "ab c" to 1, 2, 1 in that
order. -/
theorem C18_send_payload_and_order (cs : TelnetChatServer) (s : Session)
    (args : List String) :
    (SendHandlerFunc cs s args).writes
      = ((members cs (roomOf cs s)).filter (fun w => decide (w ≠ s))).map
          (fun w => (w, String.join args)) ∧
    (∀ t : Session, (SendHandlerFunc cs s args).writes.count (t, String.join args)
      = if t = s then 0 else (members cs (roomOf cs s)).count t) ∧
    String.join ["a", "b c"] = "ab c" ∧
    (SendHandlerFunc (run NewChatServer [.join 0 ["lobby"], .join 1 ["lobby"],
        .join 2 ["lobby"], .join 1 ["lobby"]]) 0 ["a", "b c"]).writes
      = [(1, "ab c"), (2, "ab c"), (1, "ab c")] := by
  refine ⟨?_, fun t => ?_, by decide, by decide⟩
  · simp only [SendHandlerFunc, sendLoop_eq_filter]
  · simp only [SendHandlerFunc]
    exact sendLoop_count s (String.join args) _ t

/-! ## C19: Send leaves the maps alone -/

/-- Claim C19: for every registry state, session and argument list, the room registry
and the membership tracker after SendHandlerFunc are those before it; the lookup of the
sender's room creates no entry, so on the empty registry a Send by session 0 leaves the
room named by the empty string without an entry. -/
theorem C19_send_changes_no_state (cs : TelnetChatServer) (s : Session) (args : List String) :
    (SendHandlerFunc cs s args).cs.rooms = cs.rooms ∧
    (SendHandlerFunc cs s args).cs.userRooms = cs.userRooms ∧
    roomOf NewChatServer 0 = "" ∧
    (SendHandlerFunc NewChatServer 0 ["hi"]).cs.rooms "" = none ∧
    (SendHandlerFunc NewChatServer 0 ["hi"]).cs.userRooms 0 = none :=
  ⟨rfl, rfl, rfl, rfl, rfl⟩

/-! ## C20: referential integrity of the two maps -/

/-- Claim C20: in every registry state reachable from the empty registry by Join, Leave
and Send calls, every session that occurs in some room's member collection has an entry
in the membership tracker, and every room name the tracker maps a session to has an
entry in the room registry. -/
theorem C20_referential_integrity (cs : TelnetChatServer) (h : Reachable cs) :
    (∀ (r : String) (s : Session), s ∈ members cs r → (cs.userRooms s).isSome = true) ∧
    (∀ (s : Session) (r : String), cs.userRooms s = some r → (cs.rooms r).isSome = true) := by
  obtain ⟨cmds, rfl⟩ := h
  exact referential_integrity_run cmds NewChatServer MembersHaveEntry_new TrackedRoomsExist_new

/-- Claim C20 at the state after Join(0, "a"), Join(0, "b"), Leave(0), Send(0, "hi"). -/
theorem C20_referential_integrity_witness :
    Reachable (run NewChatServer [.join 0 ["a"], .join 0 ["b"], .leave 0 [], .send 0 ["hi"]]) ∧
    (∀ (r : String) (s : Session),
      s ∈ members (run NewChatServer
        [.join 0 ["a"], .join 0 ["b"], .leave 0 [], .send 0 ["hi"]]) r →
      ((run NewChatServer
        [.join 0 ["a"], .join 0 ["b"], .leave 0 [], .send 0 ["hi"]]).userRooms s).isSome
        = true) :=
  ⟨⟨_, rfl⟩, (C20_referential_integrity _ ⟨_, rfl⟩).1⟩

end TelnetChat
